import Mathlib

/-!
Verification of the omise-go client core (client.go, internal/endpoint.go,
operations/onboard.go, the UploadDocument operation) against its
natural-language specification.

The Go code is shallowly embedded: pure request construction becomes Lean
functions over explicit data; the HTTP round trip performed by the standard
library transport is an oracle value (`NetResult`) supplied to the
dispatcher; the standard library JSON codec and the gorilla/schema encoder
are abstracted as explicit function parameters or per-operation
serialization results, since they are external dependencies, not repository
code. Byte strings are `List Nat`.
-/

namespace Omise

/-- internal.Endpoint is a string type; `API` is its production literal
(internal/endpoint.go). -/
def API : String := "https://api.omise.co"

/-- Staging endpoint literal (internal/endpoint.go). -/
def APIStaging : String := "https://api.staging-omise.co"

/-- Vault endpoint literal (internal/endpoint.go). -/
def Vault : String := "https://vault.omise.co"

/-- Modelled from the spec: internal.Description (its defining file is not
under src/; the spec lists exactly these fields: Endpoint, Method, Path,
ContentType, plus a derived KeyKind handled separately). The Endpoint field
is the string value of the internal.Endpoint identifier. -/
structure Description where
  endpoint : String
  method : String
  path : String
  contentType : String
  deriving Repr, DecidableEq

/-- One part of a multipart/form-data body: either a plain text field or a
file part with a field name, a file name and the file content bytes. -/
inductive Part where
  | textField (name value : String)
  | filePart (fieldName filename : String) (content : List Nat)
  deriving Repr, DecidableEq

/-- Request body at the abstraction level of the three builders: raw JSON
bytes, an URL-encoded form given as the ordered key/value pairs produced by
url.Values.Encode, or a multipart body given as its ordered parts. -/
inductive Body where
  | jsonBytes (b : List Nat)
  | formEncoded (pairs : List (String × String))
  | multipart (parts : List Part)
  deriving Repr, DecidableEq

/-- The ordered key/value pairs of a form-encoded body (empty for the other
body shapes). -/
def Body.formPairs : Body → List (String × String)
  | .formEncoded pairs => pairs
  | _ => []

/-- http.Request as far as the client core observes it: method, target URL,
body, the headers added by the core (Header.Add appends), and the basic-auth
credentials set by SetBasicAuth (user, password). -/
structure Request where
  method : String
  url : String
  body : Body
  headers : List (String × String)
  basicAuth : Option (String × String)
  deriving Repr, DecidableEq

/-- req.Header.Add(key, value): appends one header pair. -/
def addHeader (req : Request) (key value : String) : Request :=
  { req with headers := req.headers ++ [(key, value)] }

/-- req.SetBasicAuth(user, password). -/
def setBasicAuth (req : Request) (user password : String) : Request :=
  { req with basicAuth := some (user, password) }

/-- Client (client.go): credential fields, the per-instance endpoint
override map (a Go map, embedded as a partial lookup function), and the
version configuration. The http.Client transport itself is supplied to the
dispatcher as an oracle. -/
structure Client where
  debug : Bool
  pkey : String
  skey : String
  ckey : String
  endpoints : String → Option String
  apiVersion : String
  goVersion : String

/-- NewClient (client.go): prefix-validates the publishable and secret keys
and rejects a client with neither.  The GoVersion release-tag probe is an
environment lookup and is left at its zero value here. -/
def NewClient (pkey skey : String) : Option Client :=
  if pkey = "" ∧ skey = "" then none
  else if pkey ≠ "" ∧ ¬ (pkey.startsWith "pkey_") then none
  else if skey ≠ "" ∧ ¬ (skey.startsWith "skey_") then none
  else some { debug := false, pkey := pkey, skey := skey, ckey := "",
              endpoints := fun _ => none, apiVersion := "", goVersion := "" }

/-- NewClientWithChainKey (client.go): prefix-validates the chain key. -/
def NewClientWithChainKey (ckey : String) : Option Client :=
  if ckey = "" then none
  else if ckey ≠ "" ∧ ¬ (ckey.startsWith "ckey_") then none
  else some { debug := false, pkey := "", skey := "", ckey := ckey,
              endpoints := fun _ => none, apiVersion := "", goVersion := "" }

/-- An internal.Operation as the core consumes it: its Description, the
value of desc.KeyKind() (the derivation of the key kind from the endpoint
lives outside src/, so it is carried as data), and the results of the two
external serializers applied to the operation value: json.Marshal and the
gorilla/schema form encoder (each either an error message or its output). -/
structure Op where
  desc : Description
  keyKind : String
  marshalJSON : Except String (List Nat)
  formEncode : Except String (List (String × List String))

/-- A local failure while constructing a request: a serialization error
(json.Marshal / schema encoding / json.Unmarshal into the document struct)
returned as-is, or an ErrInternal configuration error from credential
selection. -/
inductive BuildErr where
  | marshal (msg : String)
  | config (msg : String)
  deriving Repr, DecidableEq

/-- Endpoint resolution as written inline in all three builders:
`endpoint := string(desc.Endpoint); if ep, ok := c.Endpoints[desc.Endpoint]; ok { endpoint = ep }`. -/
def Client.resolveEndpoint (c : Client) (e : String) : String :=
  match c.endpoints e with
  | some ep => ep
  | none => e

/-- buildJSONRequest (client.go): marshal the operation to JSON, resolve the
endpoint, and build the request with the JSON bytes as body. -/
def Client.buildJSONRequest (c : Client) (op : Op) : Except BuildErr Request :=
  match op.marshalJSON with
  | .error msg => .error (.marshal msg)
  | .ok b =>
      .ok { method := op.desc.method,
            url := c.resolveEndpoint op.desc.endpoint ++ op.desc.path,
            body := .jsonBytes b, headers := [], basicAuth := none }

/-- The sorted flattening performed by url.Values.Encode: keys in ascending
order, and for each key its values in order.  `insertByKey` is one insertion
step of the key sort. -/
def insertByKey (p : String × List String) :
    List (String × List String) → List (String × List String)
  | [] => [p]
  | q :: qs => if p.1 ≤ q.1 then p :: q :: qs else q :: insertByKey p qs

/-- Insertion sort of form entries by key (url.Values.Encode sorts the map
keys before writing). -/
def sortByKey : List (String × List String) → List (String × List String)
  | [] => []
  | p :: ps => insertByKey p (sortByKey ps)

/-- One form entry expanded to its wire pairs: each value paired with the
entry's key, in order. -/
def expandPairs (p : String × List String) : List (String × String) :=
  p.2.map (fun v => (p.1, v))

/-- url.Values.Encode at the key/value level: sort entries by key, then emit
every value of each entry under that entry's key, order preserved within a
key. -/
def valuesEncode (form : List (String × List String)) : List (String × String) :=
  ((sortByKey form).map expandPairs).flatten

/-- buildFormDataRequest (client.go): encode the operation through the
schema encoder into url.Values, serialize them with Encode, resolve the
endpoint, and use the encoded form as the body. -/
def Client.buildFormDataRequest (c : Client) (op : Op) : Except BuildErr Request :=
  match op.formEncode with
  | .error msg => .error (.marshal msg)
  | .ok form =>
      .ok { method := op.desc.method,
            url := c.resolveEndpoint op.desc.endpoint ++ op.desc.path,
            body := .formEncoded (valuesEncode form), headers := [], basicAuth := none }

/-- The anonymous three-field document struct that
buildUploadDocumentRequest unmarshals the operation's JSON into. -/
structure ExtractedDoc where
  file : List Nat
  filename : String
  kind : String
  deriving Repr, DecidableEq

/-- writer.FormDataContentType(): the multipart content type carrying the
writer's boundary. -/
def formDataContentType (boundary : String) : String :=
  "multipart/form-data; boundary=" ++ boundary

/-- buildUploadDocumentRequest (client.go): marshal the operation to JSON,
unmarshal it into the {File, Filename, Kind} document struct (the
json.Unmarshal step is the `unmarshalDoc` oracle), write a multipart body
with one text field "kind" and one file part under the fixed field name
"file" with the document's filename and file bytes, resolve the endpoint,
and set the boundary-bearing Content-Type computed by the multipart writer.
The writer's randomly chosen boundary is the `boundary` parameter. -/
def Client.buildUploadDocumentRequest (c : Client) (op : Op)
    (unmarshalDoc : List Nat → Except String ExtractedDoc)
    (boundary : String) : Except BuildErr Request :=
  match op.marshalJSON with
  | .error msg => .error (.marshal msg)
  | .ok b =>
      match unmarshalDoc b with
      | .error msg => .error (.marshal msg)
      | .ok doc =>
          .ok { method := op.desc.method,
                url := c.resolveEndpoint op.desc.endpoint ++ op.desc.path,
                body := .multipart [Part.textField "kind" doc.kind,
                                    Part.filePart "file" doc.filename doc.file],
                headers := [("Content-Type", formDataContentType boundary)],
                basicAuth := none }

/-- setRequestHeaders (client.go): Content-Type from the Description when
non-empty, the User-Agent with the optional Go-version suffix, the
Omise-Version header when configured, then the credential switch on
desc.KeyKind(): public uses the publishable key unconditionally; secret
prefers the secret key, falls back to the chain key, and otherwise fails
with ErrInternal; any other kind fails with ErrInternal naming the
endpoint. -/
def Client.setRequestHeaders (c : Client) (req : Request) (desc : Description)
    (keyKind : String) : Except BuildErr Request :=
  let ua := if c.goVersion = "" then "OmiseGo/2015-11-06"
            else "OmiseGo/2015-11-06" ++ " Go/" ++ c.goVersion
  let req1 := if desc.contentType = "" then req
              else addHeader req "Content-Type" desc.contentType
  let req2 := addHeader req1 "User-Agent" ua
  let req3 := if c.apiVersion = "" then req2
              else addHeader req2 "Omise-Version" c.apiVersion
  if keyKind = "public" then .ok (setBasicAuth req3 c.pkey "")
  else if keyKind = "secret" then
    if c.skey ≠ "" then .ok (setBasicAuth req3 c.skey "")
    else if c.ckey ≠ "" then .ok (setBasicAuth req3 c.ckey "")
    else .error (.config "either secret key or chain key must not be empty")
  else .error (.config ("unrecognized endpoint:" ++ desc.endpoint))

/-- Client.Request (client.go): buildJSONRequest then setRequestHeaders. -/
def Client.Request (c : Client) (op : Op) : Except BuildErr Request :=
  match c.buildJSONRequest op with
  | .error e => .error e
  | .ok req => c.setRequestHeaders req op.desc op.keyKind

/-- Client.FormDataRequest (client.go): buildFormDataRequest then
setRequestHeaders. -/
def Client.FormDataRequest (c : Client) (op : Op) : Except BuildErr Omise.Request :=
  match c.buildFormDataRequest op with
  | .error e => .error e
  | .ok req => c.setRequestHeaders req op.desc op.keyKind

/-- Client.UploadDocumentRequest (client.go): buildUploadDocumentRequest
then setRequestHeaders. -/
def Client.UploadDocumentRequest (c : Client) (op : Op)
    (unmarshalDoc : List Nat → Except String ExtractedDoc)
    (boundary : String) : Except BuildErr Omise.Request :=
  match c.buildUploadDocumentRequest op unmarshalDoc boundary with
  | .error e => .error e
  | .ok req => c.setRequestHeaders req op.desc op.keyKind

/-- The code/message fields that json.Unmarshal populates in the Error
struct from a response body.  The Error shape itself is modelled from the
spec (its defining file is not under src/): the status code is supplied by
the HTTP layer, not the body; the body supplies the provider code and
message. -/
structure ErrorFields where
  code : String
  message : String
  deriving Repr, DecidableEq

/-- The HTTP round trip performed by c.Client.Do plus ioutil.ReadAll, as an
oracle: either a transport-level failure of Do itself, or a response with a
status code, the outcome of reading the body (`readErr`) and the bytes read
(`buffer`, partial when reading failed). -/
inductive NetResult where
  | netFail (msg : String)
  | netOk (statusCode : Nat) (readErr : Option String) (buffer : List Nat)

/-- The single error-or-success value a dispatch call returns: a local build
failure (serialization or ErrInternal configuration error) from the request
constructors, a transport error (the raw c.Client.Do error, or ErrTransport
wrapping a read/decode failure together with the raw bytes), a provider
*Error decoded from a non-200 body with the HTTP status code, or success
(nil). -/
inductive Outcome where
  | buildError (e : BuildErr)
  | transportError (msg : String) (raw : Option (List Nat))
  | providerError (statusCode : Nat) (code message : String)
  | success
  deriving Repr, DecidableEq

/-- The response-handling tail shared verbatim by Do, DoWithFormData and
DoUploadDocument (client.go): return a build failure as-is without touching
the network; return a transport failure of c.Client.Do as-is; wrap a body
read failure as ErrTransport with the bytes read; on a non-200 status decode
the body into Error{StatusCode: status} and return it, wrapping a decode
failure as ErrTransport with the raw bytes; on 200 decode into the result
unless it is nil, wrapping a decode failure likewise.  `decodeError` and
`decodeResult` abstract json.Unmarshal into the Error shape and into the
caller's destination (`decodeResult` returns the decode error message, none
on success); `resultNil` is whether the caller passed a nil destination.
The Bool component records whether the transport was invoked. -/
def dispatch (reqResult : Except BuildErr Request) (net : NetResult)
    (decodeError : List Nat → Except String ErrorFields)
    (resultNil : Bool) (decodeResult : List Nat → Option String) :
    Bool × Outcome :=
  match reqResult with
  | .error e => (false, .buildError e)
  | .ok _ =>
    match net with
    | .netFail msg => (true, .transportError msg none)
    | .netOk status readErr buffer =>
      match readErr with
      | some msg => (true, .transportError msg (some buffer))
      | none =>
        if status ≠ 200 then
          match decodeError buffer with
          | .error msg => (true, .transportError msg (some buffer))
          | .ok ef => (true, .providerError status ef.code ef.message)
        else if resultNil then (true, .success)
        else
          match decodeResult buffer with
          | some msg => (true, .transportError msg (some buffer))
          | none => (true, .success)

/-- Client.Do (client.go): JSON-mode dispatch. -/
def Client.Do (c : Client) (resultNil : Bool) (op : Op) (net : NetResult)
    (decodeError : List Nat → Except String ErrorFields)
    (decodeResult : List Nat → Option String) : Bool × Outcome :=
  dispatch (c.Request op) net decodeError resultNil decodeResult

/-- Client.DoWithFormData (client.go): form-mode dispatch. -/
def Client.DoWithFormData (c : Client) (resultNil : Bool) (op : Op)
    (net : NetResult) (decodeError : List Nat → Except String ErrorFields)
    (decodeResult : List Nat → Option String) : Bool × Outcome :=
  dispatch (c.FormDataRequest op) net decodeError resultNil decodeResult

/-- Client.DoUploadDocument (client.go): multipart-mode dispatch. -/
def Client.DoUploadDocument (c : Client) (resultNil : Bool) (op : Op)
    (unmarshalDoc : List Nat → Except String ExtractedDoc) (boundary : String)
    (net : NetResult) (decodeError : List Nat → Except String ErrorFields)
    (decodeResult : List Nat → Option String) : Bool × Outcome :=
  dispatch (c.UploadDocumentRequest op unmarshalDoc boundary) net
    decodeError resultNil decodeResult

/-- operations.UploadDocument: the multipart upload operation, with file
bytes, filename and document kind. -/
structure UploadDocument where
  File : List Nat
  Filename : String
  Kind : String
  deriving Repr, DecidableEq

/-- UploadDocument.Describe(): staging endpoint, POST /documents, and no
ContentType (left at its zero value). -/
def UploadDocument.describe : Description :=
  { endpoint := APIStaging, method := "POST", path := "/documents", contentType := "" }

/-- operations.CreateAccountDetail: nested account_details fields with their
schema wire names. -/
structure CreateAccountDetail where
  EntityType : String
  FullName : String
  TaxID : String
  BirthDate : String
  Phone : String
  Mobile : String
  Address : String
  PostalCode : String
  WebsiteUrl : String
  WebsiteNotes : String
  deriving Repr, DecidableEq

/-- operations.CreateBusinessDetail. -/
structure CreateBusinessDetail where
  MerchantCategoryId : String
  Description : String
  OtherPayment : String
  BusinessAge : String
  ApproximateTransaction : String
  BasketSize : String
  DeliveryMethod : String
  RefundPolicy : String
  deriving Repr, DecidableEq

/-- operations.CreateStateMentDetail. -/
structure CreateStateMentDetail where
  StatementName : String
  deriving Repr, DecidableEq

/-- operations.CreateTransferDetail. -/
structure CreateTransferDetail where
  BankAccountBrand : String
  BankAccountNumber : String
  BankAccountName : String
  deriving Repr, DecidableEq

/-- operations.CreatePolicyAcceptanceDetail. -/
structure CreatePolicyAcceptanceDetail where
  TermsAndConditionsAccepted : Bool
  PrivacyPolicyAccepted : Bool
  DataProtectionPolicyAccepted : Bool
  RefundPolicyAccepted : Bool
  deriving Repr, DecidableEq

/-- operations.CreateOnboard (onboard.go): the form-mode onboarding
operation, with a repeated document_ids[] field and nested detail structs
whose fields carry fully bracketed schema wire names. -/
structure CreateOnboard where
  Name : String
  AgreementAccepted : Bool
  DocumentIDs : List String
  AccountDetail : CreateAccountDetail
  BusinessDetail : CreateBusinessDetail
  StateMentDetail : CreateStateMentDetail
  TransferDetail : CreateTransferDetail
  PolicyAcceptanceDetail : CreatePolicyAcceptanceDetail
  deriving Repr, DecidableEq

/-- CreateOnboard.Describe(): staging endpoint, POST /onboard, ContentType
multipart/form-data. -/
def CreateOnboard.describe : Description :=
  { endpoint := APIStaging, method := "POST", path := "/onboard",
    contentType := "multipart/form-data" }

/-- strconv.FormatBool, used by the schema encoder for Bool fields. -/
def boolString (b : Bool) : String := if b then "true" else "false"

/-- The gorilla/schema encoder applied to a CreateOnboard value: one
url.Values entry per schema-tagged field, the slice field contributing all
its elements in order under the bracket-suffixed tag, and the untagged
nested structs flattened into the same table through their own fully
qualified tags (onboard.go).  This models the external encoder's documented
behaviour on exactly the struct tags declared in the repository. -/
def CreateOnboard.formEncode (op : CreateOnboard) : List (String × List String) :=
  [("name", [op.Name]),
   ("agreement_accepted", [boolString op.AgreementAccepted]),
   ("document_ids[]", op.DocumentIDs),
   ("account_details[entity_type]", [op.AccountDetail.EntityType]),
   ("account_details[full_name]", [op.AccountDetail.FullName]),
   ("account_details[tax_id]", [op.AccountDetail.TaxID]),
   ("account_details[birth_date]", [op.AccountDetail.BirthDate]),
   ("account_details[phone]", [op.AccountDetail.Phone]),
   ("account_details[mobile]", [op.AccountDetail.Mobile]),
   ("account_details[address]", [op.AccountDetail.Address]),
   ("account_details[postal_code]", [op.AccountDetail.PostalCode]),
   ("account_details[website_url]", [op.AccountDetail.WebsiteUrl]),
   ("account_details[website_notes]", [op.AccountDetail.WebsiteNotes]),
   ("business_details[merchant_category_id]", [op.BusinessDetail.MerchantCategoryId]),
   ("business_details[description]", [op.BusinessDetail.Description]),
   ("business_details[other_payment]", [op.BusinessDetail.OtherPayment]),
   ("business_details[business_age]", [op.BusinessDetail.BusinessAge]),
   ("business_details[approximate_transaction]", [op.BusinessDetail.ApproximateTransaction]),
   ("business_details[basket_size]", [op.BusinessDetail.BasketSize]),
   ("business_details[delivery_method]", [op.BusinessDetail.DeliveryMethod]),
   ("business_details[refund_policy]", [op.BusinessDetail.RefundPolicy]),
   ("statement_details[statement_name]", [op.StateMentDetail.StatementName]),
   ("transfer_details[bank_account_brand]", [op.TransferDetail.BankAccountBrand]),
   ("transfer_details[bank_account_number]", [op.TransferDetail.BankAccountNumber]),
   ("transfer_details[bank_account_name]", [op.TransferDetail.BankAccountName]),
   ("policy_acceptance_details[terms_and_conditions_accepted]",
      [boolString op.PolicyAcceptanceDetail.TermsAndConditionsAccepted]),
   ("policy_acceptance_details[privacy_policy_accepted]",
      [boolString op.PolicyAcceptanceDetail.PrivacyPolicyAccepted]),
   ("policy_acceptance_details[data_protection_policy_accepted]",
      [boolString op.PolicyAcceptanceDetail.DataProtectionPolicyAccepted]),
   ("policy_acceptance_details[refund_policy_accepted]",
      [boolString op.PolicyAcceptanceDetail.RefundPolicyAccepted])]

/-- The Op value the core sees for a CreateOnboard operation: its
Description from Describe(), the supplied key kind and JSON serialization,
and the schema encoding above (which never fails on this
strings-bools-and-slices struct). -/
def CreateOnboard.toOp (op : CreateOnboard) (keyKind : String)
    (marshalJSON : Except String (List Nat)) : Op :=
  { desc := CreateOnboard.describe, keyKind := keyKind,
    marshalJSON := marshalJSON, formEncode := .ok op.formEncode }

/-- Registering an endpoint override: `c.Endpoints[e] = u`. -/
def Client.withEndpoint (c : Client) (e u : String) : Client :=
  { c with endpoints := fun x => if x = e then some u else c.endpoints x }

/-- Whether an outcome is a local build failure. -/
def Outcome.isBuildError : Outcome → Bool
  | .buildError _ => true
  | _ => false

/-- Whether an outcome is a transport error. -/
def Outcome.isTransportError : Outcome → Bool
  | .transportError _ _ => true
  | _ => false

/-- Whether an outcome is a decoded provider error. -/
def Outcome.isProviderError : Outcome → Bool
  | .providerError _ _ _ => true
  | _ => false

/-- Whether an outcome is success. -/
def Outcome.isSuccess : Outcome → Bool
  | .success => true
  | _ => false

/-- How many of the four outcome kinds an outcome exhibits. -/
def Outcome.kindTally (o : Outcome) : Nat :=
  (cond o.isBuildError 1 0) + (cond o.isTransportError 1 0) +
    (cond o.isProviderError 1 0) + (cond o.isSuccess 1 0)

/-- A concrete client configured with only a chain key, as
NewClientWithChainKey produces. -/
def chainClient : Client :=
  { debug := false, pkey := "", skey := "", ckey := "ckey_only",
    endpoints := fun _ => none, apiVersion := "", goVersion := "" }

/-- A concrete bare request, before headers. -/
def baseRequest : Omise.Request :=
  { method := "POST", url := "", body := .jsonBytes [], headers := [],
    basicAuth := none }

/-- A concrete secret-kind Description. -/
def chargeDesc : Description :=
  { endpoint := API, method := "POST", path := "/charges",
    contentType := "application/json" }

/-- A concrete JSON-mode operation whose serialization is the two bytes of
an empty JSON object. -/
def jsonOp : Op :=
  { desc := chargeDesc, keyKind := "secret", marshalJSON := .ok [123, 125],
    formEncode := .ok [] }

/-- The request Client.Request builds from `jsonOp` for `chainClient`. -/
def jsonReqFix : Omise.Request :=
  { method := "POST", url := "https://api.omise.co/charges",
    body := .jsonBytes [123, 125],
    headers := [("Content-Type", "application/json"),
                ("User-Agent", "OmiseGo/2015-11-06")],
    basicAuth := some ("ckey_only", "") }

/-- A result decoder that always fails, standing for a body that is not
valid JSON for the destination type. -/
def alwaysFailDecode : List Nat → Option String := fun _ => some "invalid character"

/-- An Error-shape decoder returning the invalid_card provider error. -/
def invalidCardDecode : List Nat → Except String ErrorFields :=
  fun _ => .ok { code := "invalid_card", message := "bad" }

/-- An Error-shape decoder that always fails. -/
def alwaysFailErrDecode : List Nat → Except String ErrorFields :=
  fun _ => .error "invalid character"

/-- A document unmarshaller fixture. -/
def docDecodeFix : List Nat → Except String ExtractedDoc :=
  fun _ => .ok { file := [10, 20], filename := "doc.png", kind := "identification" }

/-- A concrete onboarding operation with three document ids. -/
def onboardFix : CreateOnboard :=
  { Name := "Shop", AgreementAccepted := true,
    DocumentIDs := ["docu_1", "docu_2", "docu_3"],
    AccountDetail :=
      { EntityType := "individual", FullName := "A", TaxID := "",
        BirthDate := "", Phone := "", Mobile := "", Address := "",
        PostalCode := "", WebsiteUrl := "", WebsiteNotes := "" },
    BusinessDetail :=
      { MerchantCategoryId := "", Description := "",
        OtherPayment := "", BusinessAge := "", ApproximateTransaction := "",
        BasketSize := "", DeliveryMethod := "", RefundPolicy := "" },
    StateMentDetail := { StatementName := "" },
    TransferDetail :=
      { BankAccountBrand := "", BankAccountNumber := "",
        BankAccountName := "" },
    PolicyAcceptanceDetail :=
      { TermsAndConditionsAccepted := true,
        PrivacyPolicyAccepted := true, DataProtectionPolicyAccepted := true,
        RefundPolicyAccepted := true } }

/-- C1: in setRequestHeaders, key kind "secret" authenticates with the
secret key when non-empty, else with the chain key when non-empty, else
fails with the ErrInternal configuration error; key kind "public" always
authenticates with the publishable key, with no fallback and no emptiness
check; any other key kind fails with an ErrInternal naming the unrecognized
endpoint.  In particular a chain-key-only client succeeds for secret-kind
operations. -/
theorem C1_credential_selection (c : Client) (req : Omise.Request)
    (desc : Description) (kk : String) :
    (kk = "secret" → c.skey ≠ "" →
      ∃ r, c.setRequestHeaders req desc kk = .ok r ∧
        r.basicAuth = some (c.skey, "")) ∧
    (kk = "secret" → c.skey = "" → c.ckey ≠ "" →
      ∃ r, c.setRequestHeaders req desc kk = .ok r ∧
        r.basicAuth = some (c.ckey, "")) ∧
    (kk = "secret" → c.skey = "" → c.ckey = "" →
      c.setRequestHeaders req desc kk =
        .error (.config "either secret key or chain key must not be empty")) ∧
    (kk = "public" →
      ∃ r, c.setRequestHeaders req desc kk = .ok r ∧
        r.basicAuth = some (c.pkey, "")) ∧
    (kk ≠ "public" → kk ≠ "secret" →
      c.setRequestHeaders req desc kk =
        .error (.config ("unrecognized endpoint:" ++ desc.endpoint))) := by
  refine ⟨?_, ?_, ?_, ?_, ?_⟩
  · intro hkk hs
    subst hkk
    simp [Client.setRequestHeaders, hs, setBasicAuth]
  · intro hkk hs hc
    subst hkk
    simp [Client.setRequestHeaders, hs, hc, setBasicAuth]
  · intro hkk hs hc
    subst hkk
    simp [Client.setRequestHeaders, hs, hc]
  · intro hkk
    subst hkk
    simp [Client.setRequestHeaders, setBasicAuth]
  · intro hp hsec
    simp [Client.setRequestHeaders, hp, hsec]

/-- Witness for C1: the chain-key-only client authenticates a secret-kind
request with its chain key. -/
theorem C1_credential_selection_witness :
    ∃ r, chainClient.setRequestHeaders baseRequest chargeDesc "secret" = .ok r ∧
      r.basicAuth = some ("ckey_only", "") := by
  have h := (C1_credential_selection chainClient baseRequest chargeDesc "secret").2.1
  exact h rfl rfl (by decide)

/-- C2: in every dispatch call, a response with a status other than 200
whose body decodes as the Error shape yields the provider error built from
that body with the HTTP status code, and is never success. -/
theorem C2_non200_provider_error (c : Client) (op : Op) (req : Omise.Request)
    (status : Nat) (buffer : List Nat) (ef : ErrorFields)
    (decodeError : List Nat → Except String ErrorFields)
    (resultNil : Bool) (decodeResult : List Nat → Option String)
    (unmarshalDoc : List Nat → Except String ExtractedDoc) (boundary : String)
    (hs : status ≠ 200) (hd : decodeError buffer = .ok ef) :
    (c.Request op = .ok req →
      c.Do resultNil op (.netOk status none buffer) decodeError decodeResult =
        (true, .providerError status ef.code ef.message) ∧
      (c.Do resultNil op (.netOk status none buffer) decodeError decodeResult).2 ≠
        .success) ∧
    (c.FormDataRequest op = .ok req →
      c.DoWithFormData resultNil op (.netOk status none buffer) decodeError
          decodeResult =
        (true, .providerError status ef.code ef.message)) ∧
    (c.UploadDocumentRequest op unmarshalDoc boundary = .ok req →
      c.DoUploadDocument resultNil op unmarshalDoc boundary
          (.netOk status none buffer) decodeError decodeResult =
        (true, .providerError status ef.code ef.message)) := by
  refine ⟨fun hreq => ?_, fun hreq => ?_, fun hreq => ?_⟩
  · constructor
    · simp [Client.Do, dispatch, hreq, hs, hd]
    · simp [Client.Do, dispatch, hreq, hs, hd]
  · simp [Client.DoWithFormData, dispatch, hreq, hs, hd]
  · simp [Client.DoUploadDocument, dispatch, hreq, hs, hd]

/-- Witness for C2: a 402 response with the invalid_card body yields the
provider error with status 402 and that code and message. -/
theorem C2_non200_provider_error_witness :
    chainClient.Do false jsonOp (.netOk 402 none [1, 2, 3]) invalidCardDecode
        alwaysFailDecode =
      (true, .providerError 402 "invalid_card" "bad") := by
  have h := (C2_non200_provider_error chainClient jsonOp jsonReqFix 402 [1, 2, 3]
    { code := "invalid_card", message := "bad" } invalidCardDecode false
    alwaysFailDecode docDecodeFix "bnd" (by decide) rfl).1
  exact (h rfl).1

/-- C3: in every dispatch call, a 200 response whose body fails to decode
into the caller's destination yields a transport error carrying the raw
bytes, and a non-200 response whose body fails to decode into the Error
shape likewise yields a transport error carrying the raw bytes. -/
theorem C3_decode_failure_transport (c : Client) (op : Op) (req : Omise.Request)
    (status : Nat) (buffer : List Nat) (msg : String)
    (decodeError : List Nat → Except String ErrorFields)
    (resultNil : Bool) (decodeResult : List Nat → Option String)
    (unmarshalDoc : List Nat → Except String ExtractedDoc) (boundary : String) :
    (c.Request op = .ok req → decodeResult buffer = some msg →
      c.Do false op (.netOk 200 none buffer) decodeError decodeResult =
        (true, .transportError msg (some buffer))) ∧
    (c.FormDataRequest op = .ok req → decodeResult buffer = some msg →
      c.DoWithFormData false op (.netOk 200 none buffer) decodeError decodeResult =
        (true, .transportError msg (some buffer))) ∧
    (c.UploadDocumentRequest op unmarshalDoc boundary = .ok req →
      decodeResult buffer = some msg →
      c.DoUploadDocument false op unmarshalDoc boundary (.netOk 200 none buffer)
          decodeError decodeResult =
        (true, .transportError msg (some buffer))) ∧
    (c.Request op = .ok req → status ≠ 200 → decodeError buffer = .error msg →
      c.Do resultNil op (.netOk status none buffer) decodeError decodeResult =
        (true, .transportError msg (some buffer))) ∧
    (c.FormDataRequest op = .ok req → status ≠ 200 →
      decodeError buffer = .error msg →
      c.DoWithFormData resultNil op (.netOk status none buffer) decodeError
          decodeResult =
        (true, .transportError msg (some buffer))) ∧
    (c.UploadDocumentRequest op unmarshalDoc boundary = .ok req → status ≠ 200 →
      decodeError buffer = .error msg →
      c.DoUploadDocument resultNil op unmarshalDoc boundary
          (.netOk status none buffer) decodeError decodeResult =
        (true, .transportError msg (some buffer))) := by
  refine ⟨fun hreq hd => ?_, fun hreq hd => ?_, fun hreq hd => ?_,
          fun hreq hs hd => ?_, fun hreq hs hd => ?_, fun hreq hs hd => ?_⟩
  · simp [Client.Do, dispatch, hreq, hd]
  · simp [Client.DoWithFormData, dispatch, hreq, hd]
  · simp [Client.DoUploadDocument, dispatch, hreq, hd]
  · simp [Client.Do, dispatch, hreq, hs, hd]
  · simp [Client.DoWithFormData, dispatch, hreq, hs, hd]
  · simp [Client.DoUploadDocument, dispatch, hreq, hs, hd]

/-- Witness for C3: a 200 response whose body the result decoder rejects
comes back as a transport error carrying the raw bytes. -/
theorem C3_decode_failure_transport_witness :
    chainClient.Do false jsonOp (.netOk 200 none [1, 2, 3]) invalidCardDecode
        alwaysFailDecode =
      (true, .transportError "invalid character" (some [1, 2, 3])) := by
  have h := (C3_decode_failure_transport chainClient jsonOp jsonReqFix 200 [1, 2, 3]
    "invalid character" invalidCardDecode false alwaysFailDecode docDecodeFix
    "bnd").1
  exact h rfl rfl

/-- C4: a serialization failure (JSON marshal in JSON and multipart modes,
form encoding in form mode) or a credential-selection failure is returned
from the dispatch call with the transport never invoked (the Boolean
component of the dispatch result records whether the transport ran). -/
theorem C4_build_failure_before_network (c : Client) (op : Op) (m : String)
    (b : List Nat) (net : NetResult)
    (decodeError : List Nat → Except String ErrorFields)
    (resultNil : Bool) (decodeResult : List Nat → Option String)
    (unmarshalDoc : List Nat → Except String ExtractedDoc) (boundary : String) :
    (op.marshalJSON = .error m →
      c.Do resultNil op net decodeError decodeResult =
        (false, .buildError (.marshal m))) ∧
    (op.formEncode = .error m →
      c.DoWithFormData resultNil op net decodeError decodeResult =
        (false, .buildError (.marshal m))) ∧
    (op.marshalJSON = .error m →
      c.DoUploadDocument resultNil op unmarshalDoc boundary net decodeError
          decodeResult =
        (false, .buildError (.marshal m))) ∧
    (op.keyKind = "secret" → c.skey = "" → c.ckey = "" → op.marshalJSON = .ok b →
      c.Do resultNil op net decodeError decodeResult =
        (false, .buildError
          (.config "either secret key or chain key must not be empty"))) := by
  refine ⟨fun hm => ?_, fun hm => ?_, fun hm => ?_, fun hkk hs hc hm => ?_⟩
  · simp [Client.Do, dispatch, Client.Request, Client.buildJSONRequest, hm]
  · simp [Client.DoWithFormData, dispatch, Client.FormDataRequest,
          Client.buildFormDataRequest, hm]
  · simp [Client.DoUploadDocument, dispatch, Client.UploadDocumentRequest,
          Client.buildUploadDocumentRequest, hm]
  · simp [Client.Do, dispatch, Client.Request, Client.buildJSONRequest, hm,
          Client.setRequestHeaders, hkk, hs, hc]

/-- Witness for C4: a client with neither secret nor chain key fails a
secret-kind dispatch with the configuration error and no network call. -/
theorem C4_build_failure_before_network_witness :
    Client.Do
        { debug := false, pkey := "pkey_x", skey := "", ckey := "",
          endpoints := fun _ => none, apiVersion := "", goVersion := "" }
        false jsonOp (.netFail "unreachable") invalidCardDecode
        alwaysFailDecode =
      (false, .buildError
        (.config "either secret key or chain key must not be empty")) := by
  have h := (C4_build_failure_before_network
    { debug := false, pkey := "pkey_x", skey := "", ckey := "",
      endpoints := fun _ => none, apiVersion := "", goVersion := "" }
    jsonOp "" [123, 125] (.netFail "unreachable") invalidCardDecode false
    alwaysFailDecode docDecodeFix "bnd").2.2.2
  exact h rfl rfl rfl rfl

/-- Every dispatch outcome is of exactly one of the four kinds. -/
theorem Outcome.kindTally_eq_one (o : Outcome) : o.kindTally = 1 := by
  cases o <;> rfl

/-- C5: every dispatch call returns exactly one outcome among build error,
transport error, provider error, and success — never none of them and never
more than one at once.  (The Go API returns a single error value; a decoded
result is delivered only on the success outcome.) -/
theorem C5_exactly_one_outcome (c : Client) (op : Op) (net : NetResult)
    (decodeError : List Nat → Except String ErrorFields)
    (resultNil : Bool) (decodeResult : List Nat → Option String)
    (unmarshalDoc : List Nat → Except String ExtractedDoc) (boundary : String) :
    ((c.Do resultNil op net decodeError decodeResult).2.kindTally = 1) ∧
    ((c.DoWithFormData resultNil op net decodeError decodeResult).2.kindTally = 1) ∧
    ((c.DoUploadDocument resultNil op unmarshalDoc boundary net decodeError
        decodeResult).2.kindTally = 1) :=
  ⟨Outcome.kindTally_eq_one _, Outcome.kindTally_eq_one _,
   Outcome.kindTally_eq_one _⟩

/-- C10: with a nil destination, a 200 response is success in every
dispatch call, for every result decoder — the body is never decoded, so
even an unparsable body cannot fail the call. -/
theorem C10_nil_result_skips_decode (c : Client) (op : Op) (req : Omise.Request)
    (buffer : List Nat) (decodeError : List Nat → Except String ErrorFields)
    (decodeResult : List Nat → Option String)
    (unmarshalDoc : List Nat → Except String ExtractedDoc) (boundary : String) :
    (c.Request op = .ok req →
      c.Do true op (.netOk 200 none buffer) decodeError decodeResult =
        (true, .success)) ∧
    (c.FormDataRequest op = .ok req →
      c.DoWithFormData true op (.netOk 200 none buffer) decodeError decodeResult =
        (true, .success)) ∧
    (c.UploadDocumentRequest op unmarshalDoc boundary = .ok req →
      c.DoUploadDocument true op unmarshalDoc boundary (.netOk 200 none buffer)
          decodeError decodeResult =
        (true, .success)) := by
  refine ⟨fun hreq => ?_, fun hreq => ?_, fun hreq => ?_⟩
  · simp [Client.Do, dispatch, hreq]
  · simp [Client.DoWithFormData, dispatch, hreq]
  · simp [Client.DoUploadDocument, dispatch, hreq]

/-- Witness for C10: a 200 response with a nil destination succeeds even
though the result decoder rejects every body. -/
theorem C10_nil_result_skips_decode_witness :
    chainClient.Do true jsonOp (.netOk 200 none [1, 2, 3]) invalidCardDecode
        alwaysFailDecode = (true, .success) := by
  have h := (C10_nil_result_skips_decode chainClient jsonOp jsonReqFix [1, 2, 3]
    invalidCardDecode alwaysFailDecode docDecodeFix "bnd").1
  exact h rfl

/-- C6: every builder targets the override registered for the operation's
endpoint identifier when one exists, concatenated with the Description's
Path; registering an override affects exactly that identifier (requests for
other identifiers resolve as before); without an override the endpoint
identifier's literal string value is used. -/
theorem C6_endpoint_override (c : Client) (op : Op) (e u : String)
    (b : List Nat) (form : List (String × List String)) (doc : ExtractedDoc)
    (unmarshalDoc : List Nat → Except String ExtractedDoc) (boundary : String) :
    (op.marshalJSON = .ok b →
      ∃ req, (c.withEndpoint e u).buildJSONRequest op = .ok req ∧
        req.url = (if op.desc.endpoint = e then u
                   else c.resolveEndpoint op.desc.endpoint) ++ op.desc.path) ∧
    (op.formEncode = .ok form →
      ∃ req, (c.withEndpoint e u).buildFormDataRequest op = .ok req ∧
        req.url = (if op.desc.endpoint = e then u
                   else c.resolveEndpoint op.desc.endpoint) ++ op.desc.path) ∧
    (op.marshalJSON = .ok b → unmarshalDoc b = .ok doc →
      ∃ req,
        (c.withEndpoint e u).buildUploadDocumentRequest op unmarshalDoc boundary =
          .ok req ∧
        req.url = (if op.desc.endpoint = e then u
                   else c.resolveEndpoint op.desc.endpoint) ++ op.desc.path) ∧
    (c.endpoints op.desc.endpoint = none → op.marshalJSON = .ok b →
      ∃ req, c.buildJSONRequest op = .ok req ∧
        req.url = op.desc.endpoint ++ op.desc.path) := by
  refine ⟨fun hm => ?_, fun hf => ?_, fun hm hd => ?_, fun hnone hm => ?_⟩
  · simp only [Client.buildJSONRequest, hm]
    refine ⟨_, rfl, ?_⟩
    by_cases he : op.desc.endpoint = e <;>
      simp [Client.resolveEndpoint, Client.withEndpoint, he]
  · simp only [Client.buildFormDataRequest, hf]
    refine ⟨_, rfl, ?_⟩
    by_cases he : op.desc.endpoint = e <;>
      simp [Client.resolveEndpoint, Client.withEndpoint, he]
  · simp only [Client.buildUploadDocumentRequest, hm, hd]
    refine ⟨_, rfl, ?_⟩
    by_cases he : op.desc.endpoint = e <;>
      simp [Client.resolveEndpoint, Client.withEndpoint, he]
  · simp only [Client.buildJSONRequest, hm]
    refine ⟨_, rfl, ?_⟩
    simp [Client.resolveEndpoint, hnone]

/-- Witness for C6: overriding the production API identifier redirects a
JSON request to the override, and the un-overridden client falls back to
the identifier's literal. -/
theorem C6_endpoint_override_witness :
    (∃ req, (chainClient.withEndpoint API "http://localhost").buildJSONRequest
        jsonOp = .ok req ∧ req.url = "http://localhost/charges") ∧
    (∃ req, chainClient.buildJSONRequest jsonOp = .ok req ∧
        req.url = "https://api.omise.co/charges") := by
  have h := C6_endpoint_override chainClient jsonOp API "http://localhost"
    [123, 125] [] { file := [], filename := "", kind := "" } docDecodeFix "bnd"
  constructor
  · obtain ⟨req, h1, h2⟩ := h.1 rfl
    refine ⟨req, h1, ?_⟩
    rw [h2]
    rfl
  · obtain ⟨req, h1, h2⟩ := h.2.2.2 rfl rfl
    refine ⟨req, h1, ?_⟩
    rw [h2]
    rfl

/-- C7: the multipart body built by buildUploadDocumentRequest for an
upload operation with file bytes B, filename F and kind K consists of
exactly two parts: the text part for K and the file part under the fixed
field name "file" with filename F and content B; nothing else from the
operation reaches the body.  The hypothesis `hrt` is the json.Marshal /
json.Unmarshal roundtrip through the anonymous document struct, which
restores the three identically named fields of operations.UploadDocument. -/
theorem C7_multipart_body (c : Client) (u : UploadDocument) (op : Op)
    (mb : List Nat) (unmarshalDoc : List Nat → Except String ExtractedDoc)
    (boundary : String) (hm : op.marshalJSON = .ok mb)
    (hrt : unmarshalDoc mb =
      .ok { file := u.File, filename := u.Filename, kind := u.Kind }) :
    ∃ req, c.buildUploadDocumentRequest op unmarshalDoc boundary = .ok req ∧
      req.body = .multipart [Part.textField "kind" u.Kind,
                             Part.filePart "file" u.Filename u.File] := by
  simp only [Client.buildUploadDocumentRequest, hm, hrt]
  exact ⟨_, rfl, rfl⟩

/-- Witness for C7: a concrete upload operation produces exactly the two
multipart parts. -/
theorem C7_multipart_body_witness :
    ∃ req, Client.buildUploadDocumentRequest chainClient
        { desc := UploadDocument.describe, keyKind := "secret",
          marshalJSON := .ok [0], formEncode := .ok [] }
        docDecodeFix "bnd" = .ok req ∧
      req.body = .multipart [Part.textField "kind" "identification",
                             Part.filePart "file" "doc.png" [10, 20]] := by
  exact C7_multipart_body chainClient
    { File := [10, 20], Filename := "doc.png", Kind := "identification" }
    { desc := UploadDocument.describe, keyKind := "secret",
      marshalJSON := .ok [0], formEncode := .ok [] }
    [0] docDecodeFix "bnd" rfl rfl

/-- setRequestHeaders adds a Content-Type header exactly when the
Description's ContentType is non-empty; its other additions (User-Agent,
Omise-Version, basic auth) never contribute a Content-Type header. -/
theorem setRequestHeaders_contentType (c : Client) (req : Omise.Request)
    (desc : Description) (kk : String) (r : Omise.Request)
    (h : c.setRequestHeaders req desc kk = .ok r) :
    r.headers.filter (fun p => p.1 == "Content-Type") =
      req.headers.filter (fun p => p.1 == "Content-Type") ++
        (if desc.contentType = "" then []
         else [("Content-Type", desc.contentType)]) := by
  simp only [Client.setRequestHeaders] at h
  split at h
  · injection h with h0
    subst h0
    by_cases hct : desc.contentType = "" <;> by_cases hav : c.apiVersion = "" <;>
      simp [hct, hav, setBasicAuth, addHeader, List.filter_append]
  · split at h
    · split at h
      · injection h with h0
        subst h0
        by_cases hct : desc.contentType = "" <;>
          by_cases hav : c.apiVersion = "" <;>
          simp [hct, hav, setBasicAuth, addHeader, List.filter_append]
      · split at h
        · injection h with h0
          subst h0
          by_cases hct : desc.contentType = "" <;>
            by_cases hav : c.apiVersion = "" <;>
            simp [hct, hav, setBasicAuth, addHeader, List.filter_append]
        · exact absurd h (by simp)
    · exact absurd h (by simp)

/-- C8: a request built through the upload path for the repository's
multipart operation (whose Description carries no ContentType) has exactly
one Content-Type header, the boundary-bearing value computed by the
multipart serializer; JSON-mode and form-mode requests carry the
Description's ContentType and omit the header when that field is empty. -/
theorem C8_content_type_headers (c : Client) (op : Op) (req : Omise.Request)
    (unmarshalDoc : List Nat → Except String ExtractedDoc) (boundary : String) :
    (op.desc = UploadDocument.describe →
      c.UploadDocumentRequest op unmarshalDoc boundary = .ok req →
      req.headers.filter (fun p => p.1 == "Content-Type") =
        [("Content-Type", formDataContentType boundary)]) ∧
    (c.Request op = .ok req →
      req.headers.filter (fun p => p.1 == "Content-Type") =
        (if op.desc.contentType = "" then []
         else [("Content-Type", op.desc.contentType)])) ∧
    (c.FormDataRequest op = .ok req →
      req.headers.filter (fun p => p.1 == "Content-Type") =
        (if op.desc.contentType = "" then []
         else [("Content-Type", op.desc.contentType)])) := by
  refine ⟨fun hdesc hreq => ?_, fun hreq => ?_, fun hreq => ?_⟩
  · unfold Client.UploadDocumentRequest at hreq
    split at hreq
    · exact absurd hreq (by simp)
    · rename_i req0 heq
      have hf := setRequestHeaders_contentType c req0 op.desc op.keyKind req hreq
      unfold Client.buildUploadDocumentRequest at heq
      split at heq
      · exact absurd heq (by simp)
      · split at heq
        · exact absurd heq (by simp)
        · injection heq with heq0
          subst heq0
          rw [hf, hdesc]
          simp [UploadDocument.describe]
  · unfold Client.Request at hreq
    split at hreq
    · exact absurd hreq (by simp)
    · rename_i req0 heq
      have hf := setRequestHeaders_contentType c req0 op.desc op.keyKind req hreq
      unfold Client.buildJSONRequest at heq
      split at heq
      · exact absurd heq (by simp)
      · injection heq with heq0
        subst heq0
        simp [hf]
  · unfold Client.FormDataRequest at hreq
    split at hreq
    · exact absurd hreq (by simp)
    · rename_i req0 heq
      have hf := setRequestHeaders_contentType c req0 op.desc op.keyKind req hreq
      unfold Client.buildFormDataRequest at heq
      split at heq
      · exact absurd heq (by simp)
      · injection heq with heq0
        subst heq0
        simp [hf]

/-- Witness for C8: the upload request for a concrete UploadDocument
operation carries exactly the boundary Content-Type header. -/
theorem C8_content_type_headers_witness :
    Client.UploadDocumentRequest chainClient
        { desc := UploadDocument.describe, keyKind := "secret",
          marshalJSON := .ok [0], formEncode := .ok [] }
        docDecodeFix "bnd" = .ok
      { method := "POST", url := "https://api.staging-omise.co/documents",
        body := .multipart [Part.textField "kind" "identification",
                            Part.filePart "file" "doc.png" [10, 20]],
        headers := [("Content-Type", formDataContentType "bnd"),
                    ("User-Agent", "OmiseGo/2015-11-06")],
        basicAuth := some ("ckey_only", "") } ∧
    ([("Content-Type", formDataContentType "bnd"),
      ("User-Agent", "OmiseGo/2015-11-06")].filter
        (fun p => p.1 == "Content-Type")) =
      [("Content-Type", formDataContentType "bnd")] := by
  constructor
  · rfl
  · exact (C8_content_type_headers chainClient
      { desc := UploadDocument.describe, keyKind := "secret",
        marshalJSON := .ok [0], formEncode := .ok [] }
      { method := "POST", url := "https://api.staging-omise.co/documents",
        body := .multipart [Part.textField "kind" "identification",
                            Part.filePart "file" "doc.png" [10, 20]],
        headers := [("Content-Type", formDataContentType "bnd"),
                    ("User-Agent", "OmiseGo/2015-11-06")],
        basicAuth := some ("ckey_only", "") }
      docDecodeFix "bnd").1 rfl rfl

/-- Inserting an entry into the key sort permutes consing it. -/
theorem insertByKey_perm (p : String × List String)
    (l : List (String × List String)) : List.Perm (insertByKey p l) (p :: l) := by
  induction l with
  | nil => exact List.Perm.refl _
  | cons q qs ih =>
    unfold insertByKey
    split
    · exact List.Perm.refl _
    · exact (List.Perm.cons q ih).trans (List.Perm.swap p q qs)

/-- The key sort of url.Values.Encode is a permutation of the entries. -/
theorem sortByKey_perm (l : List (String × List String)) :
    List.Perm (sortByKey l) l := by
  induction l with
  | nil => exact List.Perm.refl _
  | cons p ps ih =>
    exact (insertByKey_perm p (sortByKey ps)).trans (List.Perm.cons p ih)

/-- Filtering the expansion of an entry by its own key keeps every pair. -/
theorem expandPairs_filter_self (a : String) (vs : List String) :
    (expandPairs (a, vs)).filter (fun q => q.1 == a) = expandPairs (a, vs) := by
  unfold expandPairs
  induction vs with
  | nil => rfl
  | cons v ws ih => simp

/-- Filtering the expansion of an entry by a different key drops every
pair. -/
theorem expandPairs_filter_ne (k a : String) (vs : List String)
    (h : (a == k) = false) :
    (expandPairs (a, vs)).filter (fun q => q.1 == k) = [] := by
  unfold expandPairs
  induction vs with
  | nil => rfl
  | cons v ws ih => simpa [h] using ih

/-- When no entry of a form has key k, neither does its encoded
flattening. -/
theorem flatten_filter_nil (k : String) (l : List (String × List String))
    (h : l.filter (fun p => p.1 == k) = []) :
    ((l.map expandPairs).flatten).filter (fun q => q.1 == k) = [] := by
  induction l with
  | nil => rfl
  | cons p ps ih =>
    obtain ⟨a, ws⟩ := p
    rw [List.map_cons, List.flatten_cons, List.filter_append]
    rw [List.filter_cons] at h
    cases hpk : ((a : String) == k) with
    | true => simp [hpk] at h
    | false =>
      simp only [hpk] at h
      rw [expandPairs_filter_ne k a ws hpk, ih h]
      rfl

/-- When exactly one entry of a form has key k, the encoded flattening's
pairs under k are exactly that entry's values, in order. -/
theorem flatten_filter_single (k : String) (vs : List String)
    (l : List (String × List String))
    (h : l.filter (fun p => p.1 == k) = [(k, vs)]) :
    ((l.map expandPairs).flatten).filter (fun q => q.1 == k) =
      vs.map (fun v => (k, v)) := by
  induction l with
  | nil => simp at h
  | cons p ps ih =>
    obtain ⟨a, ws⟩ := p
    rw [List.map_cons, List.flatten_cons, List.filter_append]
    rw [List.filter_cons] at h
    cases hpk : ((a : String) == k) with
    | true =>
      simp only [hpk, if_true] at h
      rw [List.cons_eq_cons] at h
      obtain ⟨h1, h2⟩ := h
      have ha : a = k := congrArg Prod.fst h1
      have hw : ws = vs := congrArg Prod.snd h1
      subst ha
      subst hw
      rw [expandPairs_filter_self, flatten_filter_nil a ps h2,
        List.append_nil]
      rfl
    | false =>
      simp only [hpk] at h
      rw [expandPairs_filter_ne k a ws hpk, ih h]
      rfl

/-- C9: for a form-mode CreateOnboard operation, the URL-encoded body
contains one `name[]` pair per element of the repeated DocumentIDs field
under the bracket-suffixed key `document_ids[]`, in slice order — exactly 3
occurrences for a 3-element slice. -/
theorem C9_repeated_field_bracket (c : Client) (co : CreateOnboard) (op : Op)
    (hform : op.formEncode = .ok co.formEncode)
    (h3 : co.DocumentIDs.length = 3) :
    ∃ req, c.buildFormDataRequest op = .ok req ∧
      (req.body.formPairs.filter
        (fun q => q.1 == "document_ids[]")).map Prod.snd = co.DocumentIDs ∧
      (req.body.formPairs.filter
        (fun q => q.1 == "document_ids[]")).length = 3 := by
  simp only [Client.buildFormDataRequest, hform]
  refine ⟨_, rfl, ?_, ?_⟩
  all_goals
    simp only [Body.formPairs]
    have hsingle : (co.formEncode).filter
        (fun p => p.1 == "document_ids[]") =
        [("document_ids[]", co.DocumentIDs)] := rfl
    have hsorted : (sortByKey co.formEncode).filter
        (fun p => p.1 == "document_ids[]") =
        [("document_ids[]", co.DocumentIDs)] :=
      List.perm_singleton.mp
        (hsingle ▸ (sortByKey_perm co.formEncode).filter _)
    have hmain := flatten_filter_single "document_ids[]" co.DocumentIDs
      (sortByKey co.formEncode) hsorted
    rw [valuesEncode, hmain]
  · simp
  · simp [h3]

/-- Witness for C9: the concrete onboarding operation with three document
ids yields exactly three document_ids[] pairs, in order. -/
theorem C9_repeated_field_bracket_witness :
    ∃ req, chainClient.buildFormDataRequest
        (onboardFix.toOp "secret" (.ok [])) = .ok req ∧
      (req.body.formPairs.filter
        (fun q => q.1 == "document_ids[]")).map Prod.snd =
        ["docu_1", "docu_2", "docu_3"] ∧
      (req.body.formPairs.filter
        (fun q => q.1 == "document_ids[]")).length = 3 :=
  C9_repeated_field_bracket chainClient onboardFix
    (onboardFix.toOp "secret" (.ok [])) rfl rfl

end Omise
